import Mathlib

/-!
Shallow embedding of the CRootBox growth engine (`src/RootSystem.h`).

The repository ships only the header `RootSystem.h` under `src/`; the member
function bodies (RootSystem.cpp, Root.*, the tropism and growth-function
classes) are not part of `src/`.  Everything that is decided by inline code in
the header (the id counters and their accessors, `getNumberOfNodes`,
`getNumberOfRoots`, `getSimTime`, `setRootTypeParameter` / `getRootTypeParameter`
via `std::vector::at`, the field lists of `RootSystem` and `RootSystemState`)
is embedded from that source.  The remaining operations (`initialize`,
`simulate`, `push`/`pop` bodies, the axis growth algorithm, the tropism and
growth-function strategies, the random stream) are modelled from the
specification, as indicated by the doc comment of each such definition.

Numbers: the C++ `double` values are modelled as exact rationals so that the
model is executable; the negative-exponential growth formula, which needs the
real exponential, is stated over the reals in a separate definition.
-/

set_option linter.unusedVariables false

namespace CRootBox

/-- A 3d vector (`Vector3d` of the sources), with rational coordinates. -/
structure Vector3d where
  x : ℚ
  y : ℚ
  z : ℚ
deriving DecidableEq, Repr

def Vector3d.add (a b : Vector3d) : Vector3d := ⟨a.x + b.x, a.y + b.y, a.z + b.z⟩

def Vector3d.smul (c : ℚ) (v : Vector3d) : Vector3d := ⟨c * v.x, c * v.y, c * v.z⟩

def origin : Vector3d := ⟨0, 0, 0⟩

/-- Modelled from the spec (§3, §4.1): the per-type configuration bundle
`RootTypeParameter` (the class itself lives in `ModelParameter.h`, which is not
under `src/`).  Only the fields the growth algorithm of §4.2 consumes are kept.
`type` is the 1-based type index, `lmax` the maximum length, `r` the initial
growth rate, `ln` the inter-lateral spacing, `nob` the number of laterals,
`theta` the insertion angle, `successor` the lateral type, `gf` the growth
function selector (1 = negative exponential, 2 = linear, the
`GrowthFunctionTypes` enum of `RootSystem.h`), and `tropismT`/`tropismN`/
`tropismS` the tropism selector, trial count and strength. -/
structure RootTypeParameter where
  type : Int := -1
  lmax : ℚ := 0
  r : ℚ := 0
  ln : ℚ := 0
  nob : Nat := 0
  theta : ℚ := 0
  successor : Int := -1
  gf : Nat := 1
  tropismT : Nat := 1
  tropismN : ℚ := 1
  tropismS : ℚ := 1/5
deriving DecidableEq, Repr

/-- Modelled from the spec (§6): the plant-level configuration
(`RootSystemParameter` of `ModelParameter.h`, not under `src/`): total
simulated duration, and the emergence schedule of basal roots. -/
structure RootSystemParameter where
  simtime : ℚ := 30
  firstB : ℚ := 0
  delayB : ℚ := 0
deriving DecidableEq, Repr

/-- Modelled from the spec (§6): the confining-geometry oracle
(`SignedDistanceFunction`, not under `src/`): a signed distance, negative
inside.  The default oracle reports every point inside; a box realizes an
actual confinement. -/
inductive SignedDistanceFunction where
  | unconfined : SignedDistanceFunction
  | box (minC maxC : Vector3d) : SignedDistanceFunction
deriving DecidableEq, Repr

def SignedDistanceFunction.dist : SignedDistanceFunction → Vector3d → ℚ
  | .unconfined, _ => -1
  | .box a b, p =>
      max (max (a.x - p.x) (p.x - b.x)) (max (max (a.y - p.y) (p.y - b.y)) (max (a.z - p.z) (p.z - b.z)))

/-- Modelled from the spec (§6): the scalar-field lookup (`SoilLookUp` of
`soil.h`, not under `src/`): a spatial scalar signal queried by hydrotropism. -/
inductive SoilLookUp where
  | const (v : ℚ) : SoilLookUp
  | linearZ (a b : ℚ) : SoilLookUp
deriving DecidableEq, Repr

def SoilLookUp.get : SoilLookUp → Vector3d → ℚ
  | .const v, _ => v
  | .linearZ a b, p => a + b * p.z

/-- Modelled from the spec (§4.5): the Random Stream.  `std::mt19937` and the
distribution objects live outside `src/`; the spec requires only that draws
are a pure function of the seed and the call order and that the full internal
state (seed, position, and the cached second normal deviate of the
normal-distribution object) is copyable and restorable.  The state is the seed
together with the number of raw draws consumed so far. -/
structure RandomStream where
  seed : ℚ
  pos : Nat
  ndCache : Option ℚ
deriving DecidableEq, Repr

/-- Modelled from the spec (§4.5): one raw 32-bit draw as a pure mixing
function of the seed and the draw position. -/
def mixDraw (seed : ℚ) (pos : Nat) : Nat :=
  (seed.num.natAbs * 2654435761 + seed.den * 40503 + pos * 2246822519 + 12345) % 4294967296

/-- Uniformly distributed draw in (0,1) (`RootSystem::rand`), advancing the stream. -/
def RandomStream.rand (g : RandomStream) : ℚ × RandomStream :=
  (((mixDraw g.seed g.pos : ℚ) + 1) / 4294967297, { g with pos := g.pos + 1 })

/-- Normally distributed draw (`RootSystem::randn`).  Modelled from the spec
(§4.5): deviates are produced in pairs, the second being cached inside the
distribution object, which is why the snapshot has to copy the distribution
objects themselves. -/
def RandomStream.randn (g : RandomStream) : ℚ × RandomStream :=
  match g.ndCache with
  | some v => (v, { g with ndCache := none })
  | none =>
      let r1 := g.rand
      let r2 := r1.2.rand
      (2 * r1.1 - 1, { r2.2 with ndCache := some (2 * r2.1 - 1) })

/-- The first `n` uniform draws of a stream. -/
def randSeq : Nat → RandomStream → List ℚ
  | 0, _ => []
  | n + 1, g => (g.rand).1 :: randSeq n (g.rand).2

/-- The growth-function strategy objects (`GrowthFunction`, not under `src/`).
The codes are the `GrowthFunctionTypes` enum of `RootSystem.h`:
`gft_negexp = 1`, `gft_linear = 2`. -/
inductive GrowthFunction where
  | negexp : GrowthFunction
  | linear : GrowthFunction
deriving DecidableEq, Repr

/-- Modelled from the spec (§4.1): the overridable factory
`RootSystem::createGrowthFunction`, constructing the built-in variant from a
type code of the `GrowthFunctionTypes` enum. -/
def createGrowthFunction (gft : Nat) : GrowthFunction :=
  match gft with
  | 2 => .linear
  | _ => .negexp

/-- Modelled from the spec (§4.4): target length at a given age, over the
rationals, as used inside the executable engine model.  The linear variant is
`min (r * age) lmax` exactly as specified; the negative-exponential variant,
whose exact formula needs the real exponential (see `negexpLength` below for
the real-valued statement), is represented by a rational function with the
same shape (increasing, asymptotic to `lmax` from below); every engine-level
claim depends only on the §4.2 clamp, not on this shape. -/
def GrowthFunction.getLengthQ : GrowthFunction → ℚ → RootTypeParameter → ℚ
  | .linear, age, p => min (p.r * age) p.lmax
  | .negexp, age, p =>
      if 0 < p.r * age + p.lmax then p.lmax * (p.r * age) / (p.r * age + p.lmax) else 0

/-- Modelled from the spec (§4.3): a tropism strategy object carries its
selector (`TropismTypes` enum of `RootSystem.h`), trial count and strength. -/
structure Tropism where
  tt : Nat
  n : ℚ
  sigma : ℚ
deriving DecidableEq, Repr

/-- Modelled from the spec (§4.1): the overridable factory
`RootSystem::createTropismFunction`. -/
def createTropismFunction (tt : Nat) (n : ℚ) (sigma : ℚ) : Tropism :=
  ⟨tt, n, sigma⟩

/-- Modelled from the spec (§3, §9): one axis of the root tree (`Root` of
`Root.h`, not under `src/`), stored in the arena representation the spec's
design notes prescribe: the engine holds all axes in creation order, an axis
records its parent root id and the root ids of its children.  `nodes` is the
polyline, newest node first, as (node id, position, emergence time) triples;
`basePos` is the insertion position, `delay` the remaining emergence delay,
and `branchPts` the not-yet-consumed scheduled branch distances. -/
structure Axis where
  id : Int
  tIdx : Int
  parent : Option Int
  basePos : Vector3d
  nodes : List (Int × Vector3d × ℚ)
  age : ℚ
  length : ℚ
  delay : ℚ
  branchPts : List ℚ
  children : List Int
deriving DecidableEq, Repr

/-- Node ids of one axis (newest first). -/
def Axis.nodeIds (a : Axis) : List Int := a.nodes.map (fun n => n.1)

/-- The current tip position of an axis. -/
def tipPos (a : Axis) : Vector3d :=
  match a.nodes with
  | [] => a.basePos
  | n :: _ => n.2.1

/-- All node ids of an axis arena. -/
def nodeIdsF (l : List Axis) : List Int := l.flatMap Axis.nodeIds

/-- All root ids of an axis arena. -/
def rootIdsF (l : List Axis) : List Int := l.map Axis.id

/-- The engine-owned mutable counters threaded through one growth step:
the root-id counter `rid`, the node-id counter `nid` (`RootSystem::getRootIndex`
and `RootSystem::getNodeIndex` of the header increment them), and the random
stream. -/
structure Ctx where
  rid : Int
  nid : Int
  gen : RandomStream
deriving DecidableEq, Repr

/-- Read-only data the growth algorithm of §4.2 consults: the type-parameter
table, the strategy tables, the confining geometry, the optional scalar field,
and the simulation time stamped on newly created nodes. -/
structure Env where
  rtparam : List RootTypeParameter
  gf : List GrowthFunction
  tf : List Tropism
  geometry : SignedDistanceFunction
  soil : Option SoilLookUp
  time : ℚ
deriving DecidableEq, Repr

/-- 1-based type lookup in a parameter list, defaulting like an unset entry
when out of range (growth never fails on a type index, §7). -/
def getParamL (rtp : List RootTypeParameter) (t : Int) : RootTypeParameter :=
  if h : 1 ≤ t ∧ (t - 1).toNat < rtp.length then rtp.get ⟨(t - 1).toNat, h.2⟩ else {}

def getParam (env : Env) (t : Int) : RootTypeParameter := getParamL env.rtparam t

def getGF (env : Env) (t : Int) : GrowthFunction :=
  if h : 1 ≤ t ∧ (t - 1).toNat < env.gf.length then env.gf.get ⟨(t - 1).toNat, h.2⟩ else .negexp

def getTF (env : Env) (t : Int) : Tropism :=
  if h : 1 ≤ t ∧ (t - 1).toNat < env.tf.length then env.tf.get ⟨(t - 1).toNat, h.2⟩ else ⟨1, 1, 1/5⟩

/-- Modelled from the spec (§4.2 step 4): the scheduled branch distances of a
fresh axis, derived from the branching-interval parameters. -/
def mkBranchPts (p : RootTypeParameter) : List ℚ :=
  (List.range p.nob).map (fun k => ((k : ℚ) + 1) * p.ln)

/-- Modelled from the spec (§4.3): candidate-trial tropism.  Each trial draws
two normal deviates, perturbs the downward bias by them scaled with the
strength, scores the candidate (hydrotropism scores by the scalar field at the
candidate position when a field is present, otherwise like gravitropism), and
the best-scoring candidate of all trials wins.  Headings are left
unnormalized: the rationals have no square root, and no claim concerns the
norm of a heading. -/
def tropismTrials (env : Env) (tp : Tropism) (pos : Vector3d) :
    Nat → (Vector3d × ℚ) → RandomStream → Vector3d × RandomStream
  | 0, best, g => (best.1, g)
  | k + 1, best, g =>
      let r1 := g.randn
      let r2 := r1.2.randn
      let cand : Vector3d := ⟨tp.sigma * r1.1, tp.sigma * r2.1, -1⟩
      let score : ℚ :=
        if tp.tt = 3 then
          match env.soil with
          | some sl => sl.get (Vector3d.add pos cand)
          | none => -(r1.1 * r1.1) - r2.1 * r2.1
        else -(r1.1 * r1.1) - r2.1 * r2.1
      tropismTrials env tp pos k (if best.2 < score then (cand, score) else best) r2.2

/-- Modelled from the spec (§4.3): the tropism contract, `N` trials around the
directional bias. -/
def tropismHeading (env : Env) (tp : Tropism) (pos : Vector3d) (g : RandomStream) :
    Vector3d × RandomStream :=
  tropismTrials env tp pos (max 1 (Int.ceil tp.n).toNat) (⟨0, 0, -1⟩, -(10 ^ 20 : ℚ)) g

/-- Modelled from the spec (§4.2 step 4): spawn one lateral per scheduled
branch distance crossed by the accumulated length, consuming the distances in
order.  Each spawn allocates a fresh root id, draws the insertion angle from
the random stream, and creates a child axis with its own type (the
parent/lateral-type linkage `successor`), an insertion delay, no nodes yet,
and its own branch schedule. -/
def spawnLaterals (env : Env) (pid : Int) (ty : Int) (pos : Vector3d) (len : ℚ) :
    List ℚ → Ctx → List ℚ × List Axis × Ctx
  | [], c => ([], [], c)
  | b :: rest, c =>
      if b ≤ len then
        let rid1 := c.rid + 1
        let r := c.gen.randn
        let q := getParam env ty
        let child : Axis :=
          { id := rid1, tIdx := ty, parent := some pid, basePos := pos, nodes := [],
            age := 0, length := 0, delay := 1, branchPts := mkBranchPts q, children := [] }
        let res := spawnLaterals env pid ty pos len rest { rid := rid1, nid := c.nid, gen := r.2 }
        (res.1, child :: res.2.1, res.2.2)
      else (b :: rest, [], c)

/-- Remaining growth time after the emergence delay (§4.2 step 1). -/
def emergeDt (a : Axis) (dt : ℚ) : ℚ := if 0 < a.delay then dt - a.delay else dt

/-- The axis with its emergence delay decremented by the step (§4.2 step 1). -/
def afterDelay (a : Axis) (dt : ℚ) : Axis :=
  if 0 < a.delay then { a with delay := max 0 (a.delay - dt) } else a

/-- Modelled from the spec (§4.2 steps 3-4): place the accepted new tip node,
allocating a fresh node id, and spawn the laterals for every branch distance
the new length crosses. -/
def elongate (env : Env) (a1 : Axis) (age1 inc : ℚ) (cand : Vector3d) (g : RandomStream)
    (c : Ctx) : Axis × List Axis × Ctx :=
  let a2 : Axis :=
    { a1 with age := age1, length := a1.length + inc,
              nodes := (c.nid + 1, cand, env.time) :: a1.nodes }
  let res := spawnLaterals env a1.id (getParam env a1.tIdx).successor cand a2.length a2.branchPts
      { rid := c.rid, nid := c.nid + 1, gen := g }
  ({ a2 with branchPts := res.1, children := a2.children ++ (res.2.1).map Axis.id },
    res.2.1, res.2.2)

/-- Modelled from the spec (§4.2): one growth step of one axis.  Steps 1-4 of
the algorithm: consume the emergence delay, evaluate the growth function at
the new age and clamp the increment to be non-negative and to keep the length
within the type's maximum, ask the tropism for a heading (consuming the random
stream), place the new tip node (allocating a fresh node id) unless the
confining geometry rejects it — in which case growth is truncated at the
boundary for this step — and spawn laterals for every crossed branch distance.
Returns the grown axis, the spawned children, and the threaded counters. -/
def growAxis (env : Env) (dt : ℚ) (a : Axis) (c : Ctx) : Axis × List Axis × Ctx :=
  let dt1 := emergeDt a dt
  let a1 := afterDelay a dt
  if dt1 ≤ 0 then (a1, [], c)
  else
    let p := getParam env a1.tIdx
    let age1 := a1.age + dt1
    let target := min (GrowthFunction.getLengthQ (getGF env a1.tIdx) age1 p) p.lmax
    let inc := target - a1.length
    if inc ≤ 0 then ({ a1 with age := age1 }, [], c)
    else
      let hg := tropismHeading env (getTF env a1.tIdx) (tipPos a1) c.gen
      let cand := Vector3d.add (tipPos a1) (Vector3d.smul inc hg.1)
      if 0 < SignedDistanceFunction.dist env.geometry cand then
        ({ a1 with age := age1 }, [], { c with gen := hg.2 })
      else
        elongate env a1 age1 inc cand hg.2 c

/-- Modelled from the spec (§4.2 step 5, ordering policy): advance every axis
of the arena by `dt` in stable creation order, threading the id counters and
the random stream; laterals spawned during the step are collected and appended
to the arena afterwards (they begin consuming time on subsequent steps). -/
def growForest (env : Env) (dt : ℚ) : List Axis → Ctx → List Axis × List Axis × Ctx
  | [], c => ([], [], c)
  | a :: rest, c =>
      let r1 := growAxis env dt a c
      let r2 := growForest env dt rest r1.2.2
      (r1.1 :: r2.1, r1.2.1 ++ r2.2.1, r2.2.2)

/-- The snapshot of `RootSystem.h` lines 176-208 (`RootSystemState`): all data
that changes over time — the axes (deep copies), the strategy objects (copied
because of their adjustable state), the type-parameter table, simulation time,
both id counters, the previous-step bookkeeping, the crown count, the manual
seed flag, and the full random-generator state.  It excludes, as the header's
comment states, the `RootSystemParameter`, the confining geometry and the
soil. -/
structure RootSystemState where
  baseRoots : List Axis
  tf : List Tropism
  gf : List GrowthFunction
  rtparam : List RootTypeParameter
  simtime : ℚ
  rid : Int
  nid : Int
  old_non : Int
  old_nor : Int
  numberOfCrowns : Int
  manualSeed : Bool
  gen : RandomStream
deriving DecidableEq, Repr

/-- The growth engine of `RootSystem.h` lines 29-162 (`RootSystem`), with the
private fields of the header: plant parameter, type-parameter table, the axes
(as the arena of the spec's §9 design note — the entries with `parent = none`
are the header's base roots), per-type strategy objects, confining geometry,
optional soil, simulation time, the two id counters (initialized to -1 in the
header), previous-step bookkeeping, crown count, manual-seed flag, random
stream, and the snapshot stack (top first). -/
structure RootSystem where
  rsparam : RootSystemParameter
  rtparam : List RootTypeParameter
  baseRoots : List Axis
  gf : List GrowthFunction
  tf : List Tropism
  geometry : SignedDistanceFunction
  soil : Option SoilLookUp
  simtime : ℚ
  rid : Int
  nid : Int
  old_non : Int
  old_nor : Int
  numberOfCrowns : Int
  manualSeed : Bool
  gen : RandomStream
  stateStack : List RootSystemState
deriving DecidableEq, Repr

/-- A freshly constructed engine: the default member initializers of
`RootSystem.h` (`simtime = 0`, `rid = -1`, `nid = -1`, `old_non = 0`,
`old_nor = 0`, `numberOfCrowns = 0`, `manualSeed = false`, empty stack,
unconfined geometry, no soil).  Modelled from the spec for the parts the
missing constructor body adds: `initRTP` fills the type-parameter table with
`maxtypes = 100` default entries. -/
def RootSystem.init : RootSystem :=
  { rsparam := {}, rtparam := List.replicate 100 {}, baseRoots := [], gf := [], tf := [],
    geometry := .unconfined, soil := none, simtime := 0, rid := -1, nid := -1,
    old_non := 0, old_nor := 0, numberOfCrowns := 0, manualSeed := false,
    gen := { seed := 0, pos := 0, ndCache := none }, stateStack := [] }

/-- `RootSystem::setSeed` (header line 117): reseeds every random generator;
modelled from the spec (§4.5): the stream is reconstructed deterministically
from the numeric seed, so the whole stream state is reset. -/
def RootSystem.setSeed (s : RootSystem) (seed : ℚ) : RootSystem :=
  { s with gen := { seed := seed, pos := 0, ndCache := none }, manualSeed := true }

/-- `RootSystem::setGeometry` (header line 60). -/
def RootSystem.setGeometry (s : RootSystem) (g : SignedDistanceFunction) : RootSystem :=
  { s with geometry := g }

/-- `RootSystem::setSoil` (header line 61). -/
def RootSystem.setSoil (s : RootSystem) (so : SoilLookUp) : RootSystem :=
  { s with soil := some so }

/-- `RootSystem::setRootSystemParameter` (header line 52). -/
def RootSystem.setRootSystemParameter (s : RootSystem) (p : RootSystemParameter) : RootSystem :=
  { s with rsparam := p }

/-- `RootSystem::setRootTypeParameter` (header line 50):
`rtparam.at(p.type-1) = p` — `std::vector::at` with the 1-based index shifted
down; an index outside the table (including every non-positive `type`, whose
conversion to `size_t` wraps far beyond `maxtypes`) throws `std::out_of_range`. -/
def RootSystem.setRootTypeParameter (s : RootSystem) (p : RootTypeParameter) :
    Except String RootSystem :=
  if 1 ≤ p.type ∧ (p.type - 1).toNat < s.rtparam.length then
    Except.ok { s with rtparam := s.rtparam.set (p.type - 1).toNat p }
  else Except.error "out of range"

/-- `RootSystem::getRootTypeParameter` (header line 51): `rtparam.at(type-1)`,
same out-of-range behaviour. -/
def RootSystem.getRootTypeParameter (s : RootSystem) (t : Int) :
    Except String RootTypeParameter :=
  if h : 1 ≤ t ∧ (t - 1).toNat < s.rtparam.length then
    Except.ok (s.rtparam.get ⟨(t - 1).toNat, h.2⟩)
  else Except.error "out of range"

/-- `RootSystem::reset` (header line 62), modelled from the spec: discards the
axes and resets counters and time, keeping the root type parameters. -/
def RootSystem.reset (s : RootSystem) : RootSystem :=
  { s with baseRoots := [], simtime := 0, rid := -1, nid := -1, old_non := 0, old_nor := 0,
           numberOfCrowns := 0 }

/-- Sequential creation of the base axes: each consumes a fresh root id and a
fresh node id for its base node at the seed position (the header counts seed
and crown nodes in `getNumberOfNodes`). -/
def mkBaseRoots (rtp : List RootTypeParameter) : List (Int × ℚ) → Ctx → List Axis × Ctx
  | [], c => ([], c)
  | (ty, d) :: rest, c =>
      let a : Axis :=
        { id := c.rid + 1, tIdx := ty, parent := none, basePos := origin,
          nodes := [(c.nid + 1, origin, 0)], age := 0, length := 0, delay := d,
          branchPts := mkBranchPts (getParamL rtp ty), children := [] }
      let r := mkBaseRoots rtp rest { c with rid := c.rid + 1, nid := c.nid + 1 }
      (a :: r.1, r.2)

/-- `RootSystem::initialize` (header line 63), modelled from the spec (§4.1):
discards prior axes and resets the counters, constructs the per-type strategy
objects through the overridable factories, and creates the base-axis set — one
tap axis (type 1) and the requested numbers of basal (type 4) and shoot-borne
(type 5) axes, the latter on the basal emergence schedule of the plant
parameters. -/
def RootSystem.initializeRoots (s : RootSystem) (basal : Nat) (shootborne : Nat) : RootSystem :=
  let specs : List (Int × ℚ) :=
    (1, (0 : ℚ)) ::
      ((List.range basal).map (fun k => ((4 : Int), s.rsparam.firstB + (k : ℚ) * s.rsparam.delayB)) ++
        (List.range shootborne).map (fun k => ((5 : Int), s.rsparam.firstB + (k : ℚ) * s.rsparam.delayB)))
  let r := mkBaseRoots s.rtparam specs { rid := -1, nid := -1, gen := s.gen }
  { s with baseRoots := r.1,
           gf := s.rtparam.map (fun p => createGrowthFunction p.gf),
           tf := s.rtparam.map (fun p => createTropismFunction p.tropismT p.tropismN p.tropismS),
           simtime := 0, rid := r.2.rid, nid := r.2.nid, old_non := 0, old_nor := 0,
           numberOfCrowns := 0 }

/-- `RootSystem::simulate(dt)` (header line 65), modelled from the spec (§4.1,
§4.2, §7c): capture the previous-step counters, advance cumulative time by
`dt`, and grow every axis by `dt` in creation order; a zero or negative `dt`
is no-op growth for the step, not an error. -/
def RootSystem.simulate (s : RootSystem) (dt : ℚ) : RootSystem :=
  let non0 : Int := s.nid + 1
  let nor0 : Int := (s.baseRoots.length : Int)
  if dt ≤ 0 then { s with simtime := s.simtime + dt, old_non := non0, old_nor := nor0 }
  else
    let env : Env :=
      { rtparam := s.rtparam, gf := s.gf, tf := s.tf, geometry := s.geometry, soil := s.soil,
        time := s.simtime + dt }
    let r := growForest env dt s.baseRoots { rid := s.rid, nid := s.nid, gen := s.gen }
    { s with baseRoots := r.1 ++ r.2.1, simtime := s.simtime + dt, rid := r.2.2.rid,
             nid := r.2.2.nid, gen := r.2.2.gen, old_non := non0, old_nor := nor0 }

/-- A sequence of `simulate` calls. -/
def simulateSeq (dts : List ℚ) (s : RootSystem) : RootSystem :=
  dts.foldl RootSystem.simulate s

/-- Capture of a snapshot (the `RootSystemState(const RootSystem&)` constructor,
modelled from the spec §3: a deep copy of every time-varying engine field,
exactly the fields the header's `RootSystemState` declares). -/
def RootSystem.capture (s : RootSystem) : RootSystemState :=
  { baseRoots := s.baseRoots, tf := s.tf, gf := s.gf, rtparam := s.rtparam,
    simtime := s.simtime, rid := s.rid, nid := s.nid, old_non := s.old_non,
    old_nor := s.old_nor, numberOfCrowns := s.numberOfCrowns, manualSeed := s.manualSeed,
    gen := s.gen }

/-- `RootSystemState::restore` (header line 185), modelled from the spec §3:
replaces every time-varying engine field with the captured copy, leaving the
plant parameter, the geometry, the soil and the snapshot stack alone. -/
def RootSystemState.restore (st : RootSystemState) (s : RootSystem) : RootSystem :=
  { s with baseRoots := st.baseRoots, tf := st.tf, gf := st.gf, rtparam := st.rtparam,
           simtime := st.simtime, rid := st.rid, nid := st.nid, old_non := st.old_non,
           old_nor := st.old_nor, numberOfCrowns := st.numberOfCrowns,
           manualSeed := st.manualSeed, gen := st.gen }

/-- `RootSystem::push` (header line 104), modelled from the spec §3: pushes a
snapshot of the current state onto the stack. -/
def RootSystem.push (s : RootSystem) : RootSystem :=
  { s with stateStack := s.capture :: s.stateStack }

/-- `RootSystem::pop` (header line 105), modelled from the spec §3 and §7a:
popping an empty stack is a fatal usage error surfaced to the caller; otherwise
the top snapshot is removed and the engine's mutable state replaced by it. -/
def RootSystem.pop (s : RootSystem) : Except String RootSystem :=
  match h : s.stateStack with
  | [] => Except.error "pop on empty state stack"
  | st :: rest => Except.ok (st.restore { s with stateStack := rest })

/-- `RootSystem::getNumberOfNodes` (header line 79): `nid + 1`. -/
def RootSystem.getNumberOfNodes (s : RootSystem) : Int := s.nid + 1

/-- `RootSystem::getRoots` (header line 82): the root system as a sequential
vector of roots; in the arena model this is the arena itself, recomputed (the
header's `roots` buffer is a cache of exactly this value). -/
def RootSystem.getRoots (s : RootSystem) : List Axis := s.baseRoots

/-- `RootSystem::getNumberOfRoots` (header line 81): `rid + 1` when `all` is
set, otherwise the number of enumerable roots. -/
def RootSystem.getNumberOfRoots (s : RootSystem) (all : Bool) : Int :=
  if all then s.rid + 1 else (s.getRoots.length : Int)

/-- `RootSystem::getSimTime` (header line 68). -/
def RootSystem.getSimTime (s : RootSystem) : ℚ := s.simtime

/-- `RootSystem::getNodes` (header line 84): all node positions, per root in
creation order, oldest node first. -/
def RootSystem.getNodes (s : RootSystem) : List Vector3d :=
  s.baseRoots.flatMap (fun a => (a.nodes.map (fun n => n.2.1)).reverse)

/-- Segments of one axis: exactly the consecutive node pairs (§3 invariant). -/
def Axis.segs (a : Axis) : List (Int × Int) :=
  (a.nodeIds).reverse.zip ((a.nodeIds).reverse.tail)

/-- `RootSystem::getSegments` (header line 86). -/
def RootSystem.getSegments (s : RootSystem) : List (Int × Int) :=
  s.baseRoots.flatMap Axis.segs

/-- `RootSystem::getScalar` (header line 91): a per-root scalar by the
`ScalarTypes` code (the modelled subset: `st_type = 0`, `st_time = 3`,
`st_length = 4`, `st_one = 7`). -/
def RootSystem.getScalar (s : RootSystem) (stype : Nat) : List ℚ :=
  s.baseRoots.map (fun a =>
    match stype with
    | 0 => (a.tIdx : ℚ)
    | 3 => a.age
    | 4 => a.length
    | 7 => 1
    | _ => 0)

/-- `RootSystem::getNumberOfNewNodes` (header line 96): `getNumberOfNodes() - old_non`. -/
def RootSystem.getNumberOfNewNodes (s : RootSystem) : Int := s.getNumberOfNodes - s.old_non

/-- The engine states reachable through the public interface from a freshly
constructed engine. -/
inductive Reachable : RootSystem → Prop where
  | init : Reachable RootSystem.init
  | setSeed (s : RootSystem) (x : ℚ) : Reachable s → Reachable (s.setSeed x)
  | setGeometry (s : RootSystem) (g : SignedDistanceFunction) :
      Reachable s → Reachable (s.setGeometry g)
  | setSoil (s : RootSystem) (so : SoilLookUp) : Reachable s → Reachable (s.setSoil so)
  | setRootSystemParameter (s : RootSystem) (p : RootSystemParameter) :
      Reachable s → Reachable (s.setRootSystemParameter p)
  | setRootTypeParameter (s s' : RootSystem) (p : RootTypeParameter) :
      Reachable s → s.setRootTypeParameter p = Except.ok s' → Reachable s'
  | initializeRoots (s : RootSystem) (b sb : Nat) : Reachable s → Reachable (s.initializeRoots b sb)
  | simulate (s : RootSystem) (dt : ℚ) : Reachable s → Reachable (s.simulate dt)
  | push (s : RootSystem) : Reachable s → Reachable s.push
  | pop (s s' : RootSystem) : Reachable s → s.pop = Except.ok s' → Reachable s'
  | reset (s : RootSystem) : Reachable s → Reachable s.reset


/-- Store a list of type-parameter sets through `setRootTypeParameter`,
skipping entries the engine rejects. -/
def setParams : RootSystem → List RootTypeParameter → RootSystem
  | s, [] => s
  | s, p :: rest =>
      setParams (match s.setRootTypeParameter p with
        | Except.ok s2 => s2
        | Except.error _ => s) rest

/-- One complete driver run: construct a fresh engine, seed it, store the type
parameters, `initialize`, then apply the `simulate(dt)` sequence. -/
def runProgram (seed : ℚ) (ps : List RootTypeParameter) (b sb : Nat) (dts : List ℚ) :
    RootSystem :=
  simulateSeq dts ((setParams (RootSystem.init.setSeed seed) ps).initializeRoots b sb)

/-- Well-formedness of the id state: all node ids and all root ids present in
the arena are pairwise distinct, non-negative, and bounded by the respective
counter, and the counters never drop below their initial value -1. -/
def IdsOK (l : List Axis) (nid rid : Int) : Prop :=
  (nodeIdsF l).Nodup ∧ (∀ i ∈ nodeIdsF l, 0 ≤ i ∧ i ≤ nid) ∧
  (rootIdsF l).Nodup ∧ (∀ j ∈ rootIdsF l, 0 ≤ j ∧ j ≤ rid) ∧ (-1 : Int) ≤ nid ∧ (-1 : Int) ≤ rid

/-- The engine id invariant: the live arena and every stacked snapshot are
id-well-formed. -/
def StateOK (s : RootSystem) : Prop :=
  IdsOK s.baseRoots s.nid s.rid ∧ ∀ st ∈ s.stateStack, IdsOK st.baseRoots st.nid st.rid

/-- Every configured (or defaulted) type parameter has a non-negative maximum
length. -/
def ParamsOK (s : RootSystem) : Prop := ∀ t : Int, 0 ≤ (getParamL s.rtparam t).lmax

/-- Every axis of the arena respects its type's configured maximum length. -/
def LenOK (s : RootSystem) : Prop :=
  ∀ x ∈ s.baseRoots, x.length ≤ (getParamL s.rtparam x.tIdx).lmax

/-- The type-parameter set of the §8 scenario: one type with maximum length
10, linear growth with rate 1, and no laterals. -/
def linearExample : RootTypeParameter :=
  { type := 1, lmax := 10, r := 1, ln := 0, nob := 0, theta := 0, successor := -1,
    gf := 2, tropismT := 1, tropismN := 1, tropismS := 1/5 }

/-- The §8 scenario run: seed 1, the linear type stored, `initialize(0, 0)`
(tap root only, no confining geometry), then the given `simulate` sequence. -/
def linearDemo (dts : List ℚ) : RootSystem :=
  simulateSeq dts ((setParams (RootSystem.init.setSeed 1) [linearExample]).initializeRoots 0 0)

/-- The length of the tap axis (the first base root). -/
def tapLength (s : RootSystem) : ℚ :=
  match s.baseRoots with
  | a :: _ => a.length
  | [] => 0

/-- Modelled from the spec (§4.4): the negative-exponential growth function
over the reals, `maxLength * (1 - exp(-age * rate / maxLength))`
(`GrowthFunction`, not under `src/`). -/
noncomputable def negexpLength (r lmax age : ℝ) : ℝ :=
  lmax * (1 - Real.exp (-age * r / lmax))

/-- Modelled from the spec (§4.4): the linear growth function over the reals,
`min (rate * age) maxLength`. -/
def linearLength (r lmax age : ℝ) : ℝ := min (r * age) lmax

/-! ### Frame lemmas for the snapshot mechanism -/

theorem simulate_stateStack (s : RootSystem) (dt : ℚ) :
    (s.simulate dt).stateStack = s.stateStack := by
  unfold RootSystem.simulate; split <;> rfl

theorem simulate_rsparam (s : RootSystem) (dt : ℚ) :
    (s.simulate dt).rsparam = s.rsparam := by
  unfold RootSystem.simulate; split <;> rfl

theorem simulate_geometry (s : RootSystem) (dt : ℚ) :
    (s.simulate dt).geometry = s.geometry := by
  unfold RootSystem.simulate; split <;> rfl

theorem simulate_soil (s : RootSystem) (dt : ℚ) :
    (s.simulate dt).soil = s.soil := by
  unfold RootSystem.simulate; split <;> rfl

theorem simulate_rtparam (s : RootSystem) (dt : ℚ) :
    (s.simulate dt).rtparam = s.rtparam := by
  unfold RootSystem.simulate; split <;> rfl

theorem simulate_tf (s : RootSystem) (dt : ℚ) : (s.simulate dt).tf = s.tf := by
  unfold RootSystem.simulate; split <;> rfl

theorem simulate_gf (s : RootSystem) (dt : ℚ) : (s.simulate dt).gf = s.gf := by
  unfold RootSystem.simulate; split <;> rfl

theorem restore_capture (s t : RootSystem) :
    (s.capture).restore t =
      { s with rsparam := t.rsparam, geometry := t.geometry, soil := t.soil,
               stateStack := t.stateStack } := rfl

/-- C2: the snapshot round trip.  `push(); simulate(dt); pop()` restores the
engine to exactly the state before the `push()`: the popped engine is the old
state itself, hence every observable query — `getNodes`, `getSegments`,
`getScalar`, and the full random-generator state governing all subsequent
`rand()` draws — returns the value it had immediately before the `push()`. -/
theorem push_simulate_pop_roundtrip (s : RootSystem) (dt : ℚ) :
    ((s.push).simulate dt).pop = Except.ok s ∧
    Except.map RootSystem.getNodes (((s.push).simulate dt).pop) = Except.ok s.getNodes ∧
    Except.map RootSystem.getSegments (((s.push).simulate dt).pop) = Except.ok s.getSegments ∧
    Except.map (fun t => t.getScalar 4) (((s.push).simulate dt).pop) =
      Except.ok (s.getScalar 4) ∧
    Except.map (fun t => t.gen) (((s.push).simulate dt).pop) = Except.ok s.gen := by
  have hst : ((s.push).simulate dt).stateStack = s.capture :: s.stateStack := by
    rw [simulate_stateStack]; rfl
  have hmain : ((s.push).simulate dt).pop = Except.ok s := by
    unfold RootSystem.pop
    split
    · rename_i heq; rw [hst] at heq; exact absurd heq (by simp)
    · rename_i st rest heq
      rw [hst] at heq
      obtain ⟨h1, h2⟩ := List.cons_eq_cons.mp heq
      subst h2
      subst h1
      rw [restore_capture]
      dsimp only
      rw [simulate_rsparam, simulate_geometry, simulate_soil]
      rfl
  refine ⟨hmain, ?_, ?_, ?_, ?_⟩ <;> rw [hmain] <;> rfl


/-- C8: popping an empty snapshot stack is a fatal usage error surfaced to the
caller, while `pop` on a non-empty stack removes the top snapshot and replaces
the engine's whole mutable state with it. -/
theorem pop_empty_fatal (s : RootSystem) :
    ((s.pop).isOk = true ↔ s.stateStack ≠ []) ∧
    (s.stateStack = [] → s.pop = Except.error "pop on empty state stack") ∧
    (∀ st rest, s.stateStack = st :: rest →
      s.pop = Except.ok (st.restore { s with stateStack := rest }) ∧
      ∀ t : RootSystem,
        (st.restore t).baseRoots = st.baseRoots ∧ (st.restore t).tf = st.tf ∧
        (st.restore t).gf = st.gf ∧ (st.restore t).rtparam = st.rtparam ∧
        (st.restore t).simtime = st.simtime ∧ (st.restore t).rid = st.rid ∧
        (st.restore t).nid = st.nid ∧ (st.restore t).old_non = st.old_non ∧
        (st.restore t).old_nor = st.old_nor ∧
        (st.restore t).numberOfCrowns = st.numberOfCrowns ∧
        (st.restore t).manualSeed = st.manualSeed ∧ (st.restore t).gen = st.gen) := by
  refine ⟨?_, ?_, ?_⟩
  · unfold RootSystem.pop
    split
    · rename_i heq; simp [heq, Except.isOk, Except.toBool]
    · rename_i st rest heq; simp [heq, Except.isOk, Except.toBool]
  · intro h; unfold RootSystem.pop; split
    · rfl
    · rename_i st rest heq; rw [h] at heq; exact absurd heq (by simp)
  · intro st rest h
    constructor
    · unfold RootSystem.pop; split
      · rename_i heq; rw [h] at heq; exact absurd heq.symm (by simp)
      · rename_i st2 rest2 heq
        rw [h] at heq
        obtain ⟨h1, h2⟩ := List.cons_eq_cons.mp heq
        subst h1; subst h2; rfl
    · intro t
      refine ⟨rfl, rfl, rfl, rfl, rfl, rfl, rfl, rfl, rfl, rfl, rfl, rfl⟩

/-- Witness for `pop_empty_fatal`: on a fresh engine (empty stack) `pop`
fails, and after one `push` it succeeds and restores the captured fields. -/
theorem pop_empty_fatal_witness :
    RootSystem.init.pop = Except.error "pop on empty state stack" ∧
    (RootSystem.init.push).pop =
      Except.ok ((RootSystem.init.capture).restore
        { RootSystem.init.push with stateStack := [] }) :=
  ⟨(pop_empty_fatal RootSystem.init).2.1 rfl,
   ((pop_empty_fatal RootSystem.init.push).2.2 RootSystem.init.capture [] rfl).1⟩

/-- C9: `pop` is frame-exact: it leaves the engine's `RootSystemParameter`,
confining-geometry reference and soil reference untouched (they are not part
of a snapshot — `capture` ignores them — and `restore` does not write them),
while every time-varying field is overwritten with the captured copy of the
top snapshot. -/
theorem pop_frame_condition (s s' : RootSystem) (h : s.pop = Except.ok s') :
    s'.rsparam = s.rsparam ∧ s'.geometry = s.geometry ∧ s'.soil = s.soil ∧
    (∀ t : RootSystem, ∀ rsp : RootSystemParameter, ∀ g : SignedDistanceFunction,
      ∀ so : Option SoilLookUp,
      RootSystem.capture { t with rsparam := rsp, geometry := g, soil := so } = t.capture) ∧
    (∀ st rest, s.stateStack = st :: rest →
      s'.baseRoots = st.baseRoots ∧ s'.tf = st.tf ∧ s'.gf = st.gf ∧
      s'.rtparam = st.rtparam ∧ s'.simtime = st.simtime ∧ s'.rid = st.rid ∧
      s'.nid = st.nid ∧ s'.old_non = st.old_non ∧ s'.old_nor = st.old_nor ∧
      s'.numberOfCrowns = st.numberOfCrowns ∧ s'.manualSeed = st.manualSeed ∧
      s'.gen = st.gen ∧ s'.stateStack = rest) := by
  unfold RootSystem.pop at h
  split at h
  · exact absurd h (by simp)
  · rename_i st rest heq
    obtain rfl := (Except.ok.injEq ..).mp h
    refine ⟨rfl, rfl, rfl, fun t rsp g so => rfl, ?_⟩
    intro st2 rest2 h2
    rw [heq] at h2
    obtain ⟨h1, h3⟩ := List.cons_eq_cons.mp h2
    subst h1; subst h3
    exact ⟨rfl, rfl, rfl, rfl, rfl, rfl, rfl, rfl, rfl, rfl, rfl, rfl, rfl⟩

/-- Witness for `pop_frame_condition` at a concrete engine: push one snapshot
onto a fresh engine, then change the geometry and pop. -/
theorem pop_frame_condition_witness :
    (((RootSystem.init.push).setGeometry (.box origin origin)).pop).isOk = true ∧
    Except.map (fun t => t.geometry)
        (((RootSystem.init.push).setGeometry (.box origin origin)).pop) =
      Except.ok (SignedDistanceFunction.box origin origin) := by
  have h : ((RootSystem.init.push).setGeometry (.box origin origin)).pop =
      Except.ok ((RootSystem.init.capture).restore
        { (RootSystem.init.push).setGeometry (.box origin origin) with stateStack := [] }) := rfl
  have h2 := pop_frame_condition _ _ h
  refine ⟨by rw [h]; rfl, ?_⟩
  rw [h]
  have h3 := h2.2.1
  simp only [Except.map]
  rw [h3]
  rfl

/-- C10: a freshly constructed engine reports zero nodes, zero roots and zero
simulated time; the node-id and root-id counters start at -1 (the header's
default member initializers) and cumulative time starts at 0. -/
theorem fresh_engine_counts :
    RootSystem.init.getNumberOfNodes = 0 ∧
    RootSystem.init.getNumberOfRoots true = 0 ∧
    RootSystem.init.getNumberOfRoots false = 0 ∧
    RootSystem.init.getSimTime = 0 ∧
    RootSystem.init.nid = -1 ∧ RootSystem.init.rid = -1 := by
  refine ⟨rfl, rfl, rfl, rfl, rfl, rfl⟩

/-- C7: type-parameter storage.  `getRootTypeParameter(type)` succeeds exactly
when the 1-based index lies inside the configured table (`std::vector::at`
throws `std::out_of_range` otherwise, and a non-positive index wraps to a huge
`size_t`, so it is out of range too); `setRootTypeParameter(p)` fails the same
way on `p.type`; and for an in-range `p`, storing `p` and then reading index
`p.type` yields `p` again. -/
theorem typeParameter_lookup_spec (s : RootSystem) :
    (∀ t : Int, (s.getRootTypeParameter t).isOk = true ↔
      1 ≤ t ∧ t ≤ (s.rtparam.length : Int)) ∧
    (∀ p : RootTypeParameter, (s.setRootTypeParameter p).isOk = true ↔
      1 ≤ p.type ∧ p.type ≤ (s.rtparam.length : Int)) ∧
    (∀ p : RootTypeParameter, 1 ≤ p.type → p.type ≤ (s.rtparam.length : Int) →
      Except.map (fun s2 => s2.getRootTypeParameter p.type) (s.setRootTypeParameter p) =
        Except.ok (Except.ok p)) := by
  have hiff : ∀ t : Int, (1 ≤ t ∧ (t - 1).toNat < s.rtparam.length) ↔
      (1 ≤ t ∧ t ≤ (s.rtparam.length : Int)) := by
    intro t; omega
  refine ⟨?_, ?_, ?_⟩
  · intro t
    unfold RootSystem.getRootTypeParameter
    split
    · rename_i h; simp only [Except.isOk, Except.toBool]; simpa using (hiff t).mp h
    · rename_i h
      simp only [Except.isOk, Except.toBool]
      exact iff_of_false (by simp) (fun hc => h ((hiff t).mpr hc))
  · intro p
    unfold RootSystem.setRootTypeParameter
    split
    · rename_i h; simp only [Except.isOk, Except.toBool]; simpa using (hiff p.type).mp h
    · rename_i h
      simp only [Except.isOk, Except.toBool]
      exact iff_of_false (by simp) (fun hc => h ((hiff p.type).mpr hc))
  · intro p h1 h2
    have hin : 1 ≤ p.type ∧ (p.type - 1).toNat < s.rtparam.length := (hiff p.type).mpr ⟨h1, h2⟩
    unfold RootSystem.setRootTypeParameter
    rw [if_pos hin]
    unfold RootSystem.getRootTypeParameter
    simp only [Except.map]
    have hlen : (s.rtparam.set (p.type - 1).toNat p).length = s.rtparam.length :=
      List.length_set ..
    rw [dif_pos (by rw [hlen]; exact hin)]
    congr 1
    congr 1
    exact List.get_set_eq ..

/-- Witness for `typeParameter_lookup_spec`: on a fresh engine, index 0 is out
of range, index 1 is in range, and a set/get round trip at type 1 returns the
stored parameter set. -/
theorem typeParameter_lookup_spec_witness :
    ((RootSystem.init.getRootTypeParameter 0).isOk = true ↔
      1 ≤ (0 : Int) ∧ (0 : Int) ≤ (RootSystem.init.rtparam.length : Int)) ∧
    Except.map (fun s2 => s2.getRootTypeParameter ({ type := 1, lmax := 10 } : RootTypeParameter).type)
        (RootSystem.init.setRootTypeParameter { type := 1, lmax := 10 }) =
      Except.ok (Except.ok ({ type := 1, lmax := 10 } : RootTypeParameter)) :=
  ⟨(typeParameter_lookup_spec RootSystem.init).1 0,
   (typeParameter_lookup_spec RootSystem.init).2.2 { type := 1, lmax := 10 }
     (by decide) (by decide)⟩

/-! ### Freshness and monotonicity of one growth step -/

theorem afterDelay_id (a : Axis) (dt : ℚ) : (afterDelay a dt).id = a.id := by
  unfold afterDelay; split <;> rfl

theorem afterDelay_tIdx (a : Axis) (dt : ℚ) : (afterDelay a dt).tIdx = a.tIdx := by
  unfold afterDelay; split <;> rfl

theorem afterDelay_nodes (a : Axis) (dt : ℚ) : (afterDelay a dt).nodes = a.nodes := by
  unfold afterDelay; split <;> rfl

theorem afterDelay_length (a : Axis) (dt : ℚ) : (afterDelay a dt).length = a.length := by
  unfold afterDelay; split <;> rfl

theorem afterDelay_nodeIds (a : Axis) (dt : ℚ) : (afterDelay a dt).nodeIds = a.nodeIds := by
  unfold Axis.nodeIds; rw [afterDelay_nodes]

theorem spawnLaterals_spec (env : Env) (pid ty : Int) (pos : Vector3d) (len : ℚ) :
    ∀ (bps : List ℚ) (c : Ctx),
      (spawnLaterals env pid ty pos len bps c).2.2.nid = c.nid ∧
      c.rid ≤ (spawnLaterals env pid ty pos len bps c).2.2.rid ∧
      (∀ x ∈ (spawnLaterals env pid ty pos len bps c).2.1,
        x.nodes = [] ∧ x.length = 0 ∧ c.rid < x.id ∧
        x.id ≤ (spawnLaterals env pid ty pos len bps c).2.2.rid) ∧
      ((spawnLaterals env pid ty pos len bps c).2.1.map Axis.id).Nodup
  | [], c => by simp [spawnLaterals]
  | b :: rest, c => by
      by_cases hb : b ≤ len
      · obtain ⟨ih1, ih2, ih3, ih4⟩ := spawnLaterals_spec env pid ty pos len rest
          { rid := c.rid + 1, nid := c.nid, gen := (c.gen.randn).2 }
        simp only [spawnLaterals, if_pos hb]
        dsimp only at ih1 ih2 ih3 ih4 ⊢
        refine ⟨ih1, le_trans (by omega) ih2, ?_, ?_⟩
        · intro x hx
          rcases List.mem_cons.mp hx with hx | hx
          · subst hx
            refine ⟨rfl, rfl, by dsimp only; omega, ?_⟩
            dsimp only
            exact ih2
          · obtain ⟨e1, e2, e3, e4⟩ := ih3 x hx
            exact ⟨e1, e2, by omega, e4⟩
        · refine List.nodup_cons.mpr ⟨?_, ih4⟩
          intro hmem
          obtain ⟨x, hx, hxid⟩ := List.mem_map.mp hmem
          obtain ⟨-, -, e3, -⟩ := ih3 x hx
          dsimp only at hxid
          omega
      · simp [spawnLaterals, if_neg hb]

theorem elongate_spec (env : Env) (a1 : Axis) (age1 inc : ℚ) (cand : Vector3d)
    (g : RandomStream) (c : Ctx) :
    (elongate env a1 age1 inc cand g c).1.id = a1.id ∧
    (elongate env a1 age1 inc cand g c).1.tIdx = a1.tIdx ∧
    (elongate env a1 age1 inc cand g c).2.2.nid = c.nid + 1 ∧
    c.rid ≤ (elongate env a1 age1 inc cand g c).2.2.rid ∧
    (elongate env a1 age1 inc cand g c).1.nodeIds = (c.nid + 1) :: a1.nodeIds ∧
    (elongate env a1 age1 inc cand g c).1.length = a1.length + inc ∧
    (∀ x ∈ (elongate env a1 age1 inc cand g c).2.1, x.nodes = [] ∧ x.length = 0 ∧
      c.rid < x.id ∧ x.id ≤ (elongate env a1 age1 inc cand g c).2.2.rid) ∧
    ((elongate env a1 age1 inc cand g c).2.1.map Axis.id).Nodup := by
  obtain ⟨s1, s2, s3, s4⟩ := spawnLaterals_spec env a1.id (getParam env a1.tIdx).successor cand
    (a1.length + inc) a1.branchPts { rid := c.rid, nid := c.nid + 1, gen := g }
  unfold elongate
  dsimp only
  dsimp only at s1 s2 s3 s4
  refine ⟨rfl, rfl, s1, s2, by simp [Axis.nodeIds], rfl, ?_, s4⟩
  intro x hx
  obtain ⟨h1, h2, h3, h4⟩ := s3 x hx
  exact ⟨h1, h2, h3, h4⟩

theorem growAxis_spec (env : Env) (dt : ℚ) (a : Axis) (c : Ctx) :
    (growAxis env dt a c).1.id = a.id ∧
    (growAxis env dt a c).1.tIdx = a.tIdx ∧
    c.nid ≤ (growAxis env dt a c).2.2.nid ∧
    c.rid ≤ (growAxis env dt a c).2.2.rid ∧
    ((growAxis env dt a c).1.nodeIds = a.nodeIds ∧ (growAxis env dt a c).2.2.nid = c.nid ∨
      (growAxis env dt a c).1.nodeIds = (c.nid + 1) :: a.nodeIds ∧
        (growAxis env dt a c).2.2.nid = c.nid + 1) ∧
    (∀ x ∈ (growAxis env dt a c).2.1, x.nodes = [] ∧ x.length = 0 ∧
      c.rid < x.id ∧ x.id ≤ (growAxis env dt a c).2.2.rid) ∧
    ((growAxis env dt a c).2.1.map Axis.id).Nodup ∧
    ((growAxis env dt a c).1.length = a.length ∨
      (growAxis env dt a c).1.length ≤ (getParam env a.tIdx).lmax) := by
  unfold growAxis
  dsimp only
  split
  · exact ⟨afterDelay_id a dt, afterDelay_tIdx a dt, le_refl _, le_refl _,
      Or.inl ⟨afterDelay_nodeIds a dt, rfl⟩, by simp, by simp, Or.inl (afterDelay_length a dt)⟩
  · split
    · exact ⟨afterDelay_id a dt, afterDelay_tIdx a dt, le_refl _, le_refl _,
        Or.inl ⟨by simp only [Axis.nodeIds]; rw [afterDelay_nodes], rfl⟩,
        by simp, by simp, Or.inl (afterDelay_length a dt)⟩
    · split
      · exact ⟨afterDelay_id a dt, afterDelay_tIdx a dt, le_refl _, le_refl _,
          Or.inl ⟨by simp only [Axis.nodeIds]; rw [afterDelay_nodes], rfl⟩,
          by simp, by simp, Or.inl (afterDelay_length a dt)⟩
      · obtain ⟨e1, e2, e3, e4, e5, e6, e7, e8⟩ :=
          elongate_spec env (afterDelay a dt) ((afterDelay a dt).age + emergeDt a dt)
            (min (GrowthFunction.getLengthQ (getGF env (afterDelay a dt).tIdx)
                ((afterDelay a dt).age + emergeDt a dt) (getParam env (afterDelay a dt).tIdx))
              (getParam env (afterDelay a dt).tIdx).lmax - (afterDelay a dt).length)
            ((tipPos (afterDelay a dt)).add
              (Vector3d.smul
                (min (GrowthFunction.getLengthQ (getGF env (afterDelay a dt).tIdx)
                    ((afterDelay a dt).age + emergeDt a dt) (getParam env (afterDelay a dt).tIdx))
                  (getParam env (afterDelay a dt).tIdx).lmax - (afterDelay a dt).length)
                (tropismHeading env (getTF env (afterDelay a dt).tIdx)
                  (tipPos (afterDelay a dt)) c.gen).1))
            (tropismHeading env (getTF env (afterDelay a dt).tIdx)
              (tipPos (afterDelay a dt)) c.gen).2 c
        refine ⟨e1.trans (afterDelay_id a dt), e2.trans (afterDelay_tIdx a dt), by omega, e4,
          Or.inr ⟨by rw [e5, afterDelay_nodeIds], e3⟩, e7, e8, Or.inr ?_⟩
        rw [e6, add_sub_cancel]
        rw [afterDelay_tIdx]
        exact min_le_right _ _

theorem nodeIdsF_nil : nodeIdsF [] = [] := rfl

theorem nodeIdsF_cons (a : Axis) (l : List Axis) :
    nodeIdsF (a :: l) = a.nodeIds ++ nodeIdsF l := rfl

theorem nodeIdsF_append (l1 l2 : List Axis) :
    nodeIdsF (l1 ++ l2) = nodeIdsF l1 ++ nodeIdsF l2 := by
  simp [nodeIdsF]

theorem growForest_spec (env : Env) (dt : ℚ) :
    ∀ (l : List Axis) (c : Ctx),
      ((growForest env dt l c).1.map Axis.id = l.map Axis.id) ∧
      c.nid ≤ (growForest env dt l c).2.2.nid ∧
      c.rid ≤ (growForest env dt l c).2.2.rid ∧
      (∀ i ∈ nodeIdsF (growForest env dt l c).1,
        i ∈ nodeIdsF l ∨ (c.nid < i ∧ i ≤ (growForest env dt l c).2.2.nid)) ∧
      (∀ x ∈ (growForest env dt l c).2.1, x.nodes = [] ∧ x.length = 0 ∧
        c.rid < x.id ∧ x.id ≤ (growForest env dt l c).2.2.rid) ∧
      ((growForest env dt l c).2.1.map Axis.id).Nodup ∧
      ((nodeIdsF l).Nodup → (∀ i ∈ nodeIdsF l, i ≤ c.nid) →
        (nodeIdsF (growForest env dt l c).1).Nodup ∧
        (∀ i ∈ nodeIdsF (growForest env dt l c).1, i ≤ (growForest env dt l c).2.2.nid)) ∧
      ((∀ x ∈ l, x.length ≤ (getParam env x.tIdx).lmax) →
        ∀ x ∈ (growForest env dt l c).1, x.length ≤ (getParam env x.tIdx).lmax)
  | [], c => by
      refine ⟨rfl, le_refl _, le_refl _, ?_, ?_, ?_, ?_, ?_⟩ <;>
        simp [growForest, nodeIdsF]
  | a :: rest, c => by
      obtain ⟨g1, g2, g3, g4, g5, g6, g7, g8⟩ := growAxis_spec env dt a c
      obtain ⟨i1, i2, i3, i4, i5, i6, i7, i8⟩ :=
        growForest_spec env dt rest (growAxis env dt a c).2.2
      simp only [growForest]
      refine ⟨?_, le_trans g3 i2, le_trans g4 i3, ?_, ?_, ?_, ?_, ?_⟩
      · simp only [List.map_cons, g1, i1]
      · intro i hi
        rw [nodeIdsF_cons] at hi
        rcases List.mem_append.mp hi with hi | hi
        · rcases g5 with ⟨hold, hnid⟩ | ⟨hnew, hnid⟩
          · rw [hold] at hi
            exact Or.inl (by rw [nodeIdsF_cons]; exact List.mem_append.mpr (Or.inl hi))
          · rw [hnew] at hi
            rcases List.mem_cons.mp hi with hi | hi
            · subst hi
              exact Or.inr ⟨by omega, le_trans (le_of_eq hnid.symm) i2⟩
            · exact Or.inl (by rw [nodeIdsF_cons]; exact List.mem_append.mpr (Or.inl hi))
        · rcases i4 i hi with hi2 | hi2
          · exact Or.inl (by rw [nodeIdsF_cons]; exact List.mem_append.mpr (Or.inr hi2))
          · exact Or.inr ⟨by omega, hi2.2⟩
      · intro x hx
        rcases List.mem_append.mp hx with hx | hx
        · obtain ⟨e1, e2, e3, e4⟩ := g6 x hx
          exact ⟨e1, e2, e3, le_trans e4 i3⟩
        · obtain ⟨e1, e2, e3, e4⟩ := i5 x hx
          exact ⟨e1, e2, by omega, e4⟩
      · rw [List.map_append]
        refine List.nodup_append.mpr ⟨g7, i6, ?_⟩
        intro j hj hj2
        obtain ⟨x, hx, hxj⟩ := List.mem_map.mp hj
        obtain ⟨y, hy, hyj⟩ := List.mem_map.mp hj2
        obtain ⟨-, -, -, e4⟩ := g6 x hx
        obtain ⟨-, -, e3, -⟩ := i5 y hy
        omega
      · intro hnd hbd
        rw [nodeIdsF_cons] at hnd hbd
        obtain ⟨hnd1, hnd2, hdisj⟩ := List.nodup_append.mp hnd
        have hbd1 : ∀ i ∈ a.nodeIds, i ≤ c.nid := fun i hi =>
          hbd i (List.mem_append.mpr (Or.inl hi))
        have hbd2 : ∀ i ∈ nodeIdsF rest, i ≤ c.nid := fun i hi =>
          hbd i (List.mem_append.mpr (Or.inr hi))
        obtain ⟨j1, j2⟩ := i7 hnd2 (fun i hi => le_trans (hbd2 i hi) g3)
        have hhead : (growAxis env dt a c).1.nodeIds.Nodup ∧
            (∀ i ∈ (growAxis env dt a c).1.nodeIds, i ≤ (growAxis env dt a c).2.2.nid) := by
          rcases g5 with ⟨hold, hnid⟩ | ⟨hnew, hnid⟩
          · rw [hold, hnid]
            exact ⟨hnd1, hbd1⟩
          · rw [hnew, hnid]
            constructor
            · refine List.nodup_cons.mpr ⟨fun hc => ?_, hnd1⟩
              have := hbd1 _ hc
              omega
            · intro i hi
              rcases List.mem_cons.mp hi with hi | hi
              · omega
              · have := hbd1 i hi
                omega
        constructor
        · rw [nodeIdsF_cons]
          refine List.nodup_append.mpr ⟨hhead.1, j1, ?_⟩
          intro i hi hi2
          have hle := hhead.2 i hi
          rcases i4 i hi2 with hi3 | hi3
          · -- i is an old id of rest, hence at most c.nid; but i is in the grown head,
            -- so it is an old id of a (disjoint from rest) or the fresh id (too large)
            rcases g5 with ⟨hold, hnid⟩ | ⟨hnew, hnid⟩
            · rw [hold] at hi
              exact hdisj hi hi3
            · rw [hnew] at hi
              rcases List.mem_cons.mp hi with hi | hi
              · have := hbd2 i hi3
                omega
              · exact hdisj hi hi3
          · rcases g5 with ⟨hold, hnid⟩ | ⟨hnew, hnid⟩
            · rw [hold] at hi
              have := hbd1 i hi
              omega
            · rw [hnew] at hi
              rcases List.mem_cons.mp hi with hi | hi
              · omega
              · have := hbd1 i hi
                omega
        · intro i hi
          rw [nodeIdsF_cons] at hi
          rcases List.mem_append.mp hi with hi | hi
          · exact le_trans (hhead.2 i hi) i2
          · exact j2 i hi
      · intro hlen x hx
        rcases List.mem_cons.mp hx with hx | hx
        · subst hx
          rcases g8 with h | h
          · rw [h, g2]
            exact hlen a (List.mem_cons_self a rest)
          · rw [g2]
            exact h
        · exact i8 (fun y hy => hlen y (List.mem_cons_of_mem a hy)) x hx

theorem nodeIdsF_of_empty : ∀ (l : List Axis), (∀ x ∈ l, x.nodes = []) → nodeIdsF l = []
  | [], _ => rfl
  | a :: rest, h => by
      rw [nodeIdsF_cons, nodeIdsF_of_empty rest (fun x hx => h x (List.mem_cons_of_mem a hx))]
      have : a.nodeIds = [] := by
        unfold Axis.nodeIds
        rw [h a (List.mem_cons_self a rest)]
        rfl
      rw [this]
      rfl

theorem mkBaseRoots_spec (rtp : List RootTypeParameter) :
    ∀ (specs : List (Int × ℚ)) (c : Ctx),
      c.nid ≤ (mkBaseRoots rtp specs c).2.nid ∧
      c.rid ≤ (mkBaseRoots rtp specs c).2.rid ∧
      (nodeIdsF (mkBaseRoots rtp specs c).1).Nodup ∧
      (∀ i ∈ nodeIdsF (mkBaseRoots rtp specs c).1,
        c.nid < i ∧ i ≤ (mkBaseRoots rtp specs c).2.nid) ∧
      (rootIdsF (mkBaseRoots rtp specs c).1).Nodup ∧
      (∀ j ∈ rootIdsF (mkBaseRoots rtp specs c).1,
        c.rid < j ∧ j ≤ (mkBaseRoots rtp specs c).2.rid) ∧
      (∀ x ∈ (mkBaseRoots rtp specs c).1, x.length = 0)
  | [], c => by
      refine ⟨le_refl _, le_refl _, ?_, ?_, ?_, ?_, ?_⟩ <;> simp [mkBaseRoots, nodeIdsF, rootIdsF]
  | (ty, d) :: rest, c => by
      obtain ⟨i1, i2, i3, i4, i5, i6, i7⟩ := mkBaseRoots_spec rtp rest
        { c with rid := c.rid + 1, nid := c.nid + 1 }
      simp only [mkBaseRoots]
      dsimp only at i1 i2 i3 i4 i5 i6 i7 ⊢
      refine ⟨by omega, by omega, ?_, ?_, ?_, ?_, ?_⟩
      · rw [nodeIdsF_cons]
        have hone : Axis.nodeIds
            { id := c.rid + 1, tIdx := ty, parent := none, basePos := origin,
              nodes := [(c.nid + 1, origin, 0)], age := 0, length := 0, delay := d,
              branchPts := mkBranchPts (getParamL rtp ty), children := [] } = [c.nid + 1] := rfl
        rw [hone]
        refine List.nodup_append.mpr ⟨List.nodup_singleton _, i3, ?_⟩
        intro j hj hj2
        obtain rfl := List.mem_singleton.mp hj
        have := (i4 _ hj2).1
        omega
      · intro i hi
        rw [nodeIdsF_cons] at hi
        rcases List.mem_append.mp hi with hi | hi
        · obtain rfl := List.mem_singleton.mp hi
          dsimp only
          omega
        · have := i4 i hi
          omega
      · rw [rootIdsF, List.map_cons]
        refine List.nodup_cons.mpr ⟨fun hc => ?_, i5⟩
        have := (i6 _ hc).1
        dsimp only at this
        omega
      · intro j hj
        rw [rootIdsF, List.map_cons] at hj
        rcases List.mem_cons.mp hj with hj | hj
        · dsimp only at hj
          omega
        · have := i6 j hj
          omega
      · intro x hx
        rcases List.mem_cons.mp hx with hx | hx
        · subst hx; rfl
        · exact i7 x hx

theorem IdsOK_growForest (env : Env) (dt : ℚ) (l : List Axis) (c : Ctx)
    (h : IdsOK l c.nid c.rid) :
    IdsOK ((growForest env dt l c).1 ++ (growForest env dt l c).2.1)
      (growForest env dt l c).2.2.nid (growForest env dt l c).2.2.rid := by
  obtain ⟨hnd, hbd, hrd, hrb, hn1, hr1⟩ := h
  obtain ⟨A, B, C, D, E, F, G, H⟩ := growForest_spec env dt l c
  obtain ⟨G1, G2⟩ := G hnd (fun i hi => (hbd i hi).2)
  have hspE : nodeIdsF (growForest env dt l c).2.1 = [] :=
    nodeIdsF_of_empty _ (fun x hx => (E x hx).1)
  refine ⟨?_, ?_, ?_, ?_, by omega, by omega⟩
  · rw [nodeIdsF_append, hspE, List.append_nil]
    exact G1
  · intro i hi
    rw [nodeIdsF_append, hspE, List.append_nil] at hi
    rcases D i hi with hi2 | hi2
    · exact ⟨(hbd i hi2).1, G2 i hi⟩
    · exact ⟨by omega, G2 i hi⟩
  · rw [rootIdsF, List.map_append]
    refine List.nodup_append.mpr ⟨by rw [A]; exact hrd, F, ?_⟩
    intro j hj hj2
    rw [A] at hj
    obtain ⟨y, hy, hyj⟩ := List.mem_map.mp hj2
    have := (E y hy).2.2.1
    have := (hrb j hj).2
    omega
  · intro j hj
    rw [rootIdsF, List.map_append] at hj
    rcases List.mem_append.mp hj with hj | hj
    · rw [A] at hj
      obtain ⟨h1, h2⟩ := hrb j hj
      exact ⟨h1, by omega⟩
    · obtain ⟨y, hy, hyj⟩ := List.mem_map.mp hj
      obtain ⟨-, -, e3, e4⟩ := E y hy
      subst hyj
      exact ⟨by omega, e4⟩

theorem simulate_StateOK (s : RootSystem) (dt : ℚ) (h : StateOK s) :
    StateOK (s.simulate dt) := by
  obtain ⟨h1, h2⟩ := h
  constructor
  · unfold RootSystem.simulate
    dsimp only
    split
    · exact h1
    · exact IdsOK_growForest _ dt s.baseRoots ⟨s.rid, s.nid, s.gen⟩ h1
  · rw [simulate_stateStack]
    exact h2

theorem initializeRoots_StateOK (s : RootSystem) (b sb : Nat) (h : StateOK s) :
    StateOK (s.initializeRoots b sb) := by
  constructor
  · unfold RootSystem.initializeRoots
    dsimp only
    obtain ⟨m1, m2, m3, m4, m5, m6, m7⟩ := mkBaseRoots_spec s.rtparam
      ((1, (0 : ℚ)) ::
        ((List.range b).map (fun k => ((4 : Int), s.rsparam.firstB + (k : ℚ) * s.rsparam.delayB)) ++
          (List.range sb).map (fun k => ((5 : Int), s.rsparam.firstB + (k : ℚ) * s.rsparam.delayB))))
      { rid := -1, nid := -1, gen := s.gen }
    dsimp only at m1 m2 m3 m4 m5 m6 m7
    exact ⟨m3, fun i hi => by have := m4 i hi; omega, m5,
      fun j hj => by have := m6 j hj; omega, by omega, by omega⟩
  · intro st hst
    exact h.2 st hst

theorem reachable_StateOK (s : RootSystem) (h : Reachable s) : StateOK s := by
  induction h with
  | init =>
      refine ⟨⟨?_, ?_, ?_, ?_, ?_, ?_⟩, ?_⟩ <;>
        simp [RootSystem.init, nodeIdsF, rootIdsF]
  | setSeed s x hr ih => exact ⟨ih.1, ih.2⟩
  | setGeometry s g hr ih => exact ⟨ih.1, ih.2⟩
  | setSoil s so hr ih => exact ⟨ih.1, ih.2⟩
  | setRootSystemParameter s p hr ih => exact ⟨ih.1, ih.2⟩
  | setRootTypeParameter s s2 p hr heq ih =>
      unfold RootSystem.setRootTypeParameter at heq
      split at heq
      · obtain rfl := (Except.ok.injEq ..).mp heq
        exact ⟨ih.1, ih.2⟩
      · exact absurd heq (by simp)
  | initializeRoots s b sb hr ih => exact initializeRoots_StateOK s b sb ih
  | simulate s dt hr ih => exact simulate_StateOK s dt ih
  | push s hr ih =>
      refine ⟨ih.1, ?_⟩
      intro st hst
      rcases List.mem_cons.mp hst with hst | hst
      · subst hst
        exact ih.1
      · exact ih.2 st hst
  | pop s s2 hr heq ih =>
      unfold RootSystem.pop at heq
      split at heq
      · exact absurd heq (by simp)
      · rename_i st rest hstack
        obtain rfl := (Except.ok.injEq ..).mp heq
        refine ⟨ih.2 st (by rw [hstack]; exact List.mem_cons_self st rest), ?_⟩
        intro st2 hst2
        exact ih.2 st2 (by rw [hstack]; exact List.mem_cons_of_mem st hst2)
  | reset s hr ih =>
      refine ⟨⟨?_, ?_, ?_, ?_, ?_, ?_⟩, ih.2⟩ <;>
        simp [RootSystem.reset, nodeIdsF, rootIdsF]

theorem simulate_fresh (s : RootSystem) (dt : ℚ) :
    s.nid ≤ (s.simulate dt).nid ∧ s.rid ≤ (s.simulate dt).rid ∧
    ∀ i ∈ nodeIdsF (s.simulate dt).baseRoots, i ∈ nodeIdsF s.baseRoots ∨ s.nid < i := by
  unfold RootSystem.simulate
  dsimp only
  split
  · exact ⟨le_refl _, le_refl _, fun i hi => Or.inl hi⟩
  · obtain ⟨A, B, C, D, E, F, G, H⟩ := growForest_spec
      { rtparam := s.rtparam, gf := s.gf, tf := s.tf, geometry := s.geometry, soil := s.soil,
        time := s.simtime + dt } dt s.baseRoots ⟨s.rid, s.nid, s.gen⟩
    have hspE := nodeIdsF_of_empty _ (fun x hx => (E x hx).1)
    refine ⟨B, C, ?_⟩
    intro i hi
    rw [nodeIdsF_append, hspE, List.append_nil] at hi
    rcases D i hi with h | h
    · exact Or.inl h
    · exact Or.inr h.1

theorem simulateSeq_nid_mono : ∀ (dts : List ℚ) (s : RootSystem),
    s.nid ≤ (simulateSeq dts s).nid
  | [], s => le_refl _
  | d :: rest, s =>
      le_trans (simulate_fresh s d).1 (simulateSeq_nid_mono rest (s.simulate d))

/-- C3: within one engine lifetime the node ids and root ids present in the
tree are pairwise distinct; every `simulate` call only allocates ids strictly
above the current counters (allocation is strictly increasing, ids are never
reused); and `pop` reproduces the exact node-id and root-id counter values of
the captured instant. -/
theorem ids_unique_and_increasing (s : RootSystem) (h : Reachable s) :
    (nodeIdsF s.baseRoots).Nodup ∧ (rootIdsF s.baseRoots).Nodup ∧
    (∀ dt : ℚ, s.nid ≤ (s.simulate dt).nid ∧ s.rid ≤ (s.simulate dt).rid ∧
      ∀ i ∈ nodeIdsF (s.simulate dt).baseRoots, i ∈ nodeIdsF s.baseRoots ∨ s.nid < i) ∧
    (∀ st rest, s.stateStack = st :: rest →
      Except.map (fun t => t.nid) s.pop = Except.ok st.nid ∧
      Except.map (fun t => t.rid) s.pop = Except.ok st.rid) := by
  obtain ⟨⟨hnd, -, hrd, -, -, -⟩, -⟩ := reachable_StateOK s h
  refine ⟨hnd, hrd, fun dt => simulate_fresh s dt, ?_⟩
  intro st rest hst
  unfold RootSystem.pop
  split
  · rename_i heq; rw [hst] at heq; exact absurd heq (by simp)
  · rename_i st2 rest2 heq
    rw [hst] at heq
    obtain ⟨h1, h2⟩ := List.cons_eq_cons.mp heq
    subst h1; subst h2
    exact ⟨rfl, rfl⟩

/-- Witness for `ids_unique_and_increasing`: a reachable engine that has been
initialized, grown, snapshotted and grown again. -/
theorem ids_unique_and_increasing_witness :
    (nodeIdsF ((((RootSystem.init.initializeRoots 1 0).simulate 1).push).simulate
        2).baseRoots).Nodup ∧
    (rootIdsF ((((RootSystem.init.initializeRoots 1 0).simulate 1).push).simulate
        2).baseRoots).Nodup :=
  ⟨(ids_unique_and_increasing _ (Reachable.simulate _ 2 (Reachable.push _
      (Reachable.simulate _ 1 (Reachable.initializeRoots _ 1 0 Reachable.init))))).1,
   (ids_unique_and_increasing _ (Reachable.simulate _ 2 (Reachable.push _
      (Reachable.simulate _ 1 (Reachable.initializeRoots _ 1 0 Reachable.init))))).2.1⟩

/-- C6: `getNumberOfNodes` never decreases, neither across one `simulate(dt)`
call with non-negative `dt` nor across any sequence of such calls. -/
theorem numberOfNodes_monotone (s : RootSystem) (dt : ℚ) (dts : List ℚ)
    (hdt : 0 ≤ dt) (hdts : ∀ d ∈ dts, 0 ≤ d) :
    s.getNumberOfNodes ≤ (s.simulate dt).getNumberOfNodes ∧
    s.getNumberOfNodes ≤ (simulateSeq dts s).getNumberOfNodes := by
  unfold RootSystem.getNumberOfNodes
  have h1 := (simulate_fresh s dt).1
  have h2 := simulateSeq_nid_mono dts s
  omega

/-- Witness for `numberOfNodes_monotone` on a concrete grown engine. -/
theorem numberOfNodes_monotone_witness :
    ((RootSystem.init.initializeRoots 2 1).getNumberOfNodes ≤
      ((RootSystem.init.initializeRoots 2 1).simulate 1).getNumberOfNodes) ∧
    ((RootSystem.init.initializeRoots 2 1).getNumberOfNodes ≤
      (simulateSeq [1, 2] (RootSystem.init.initializeRoots 2 1)).getNumberOfNodes) :=
  numberOfNodes_monotone (RootSystem.init.initializeRoots 2 1) 1 [1, 2] (by norm_num)
    (by intro d hd; rcases List.mem_cons.mp hd with h | h
        · subst h; norm_num
        · rcases List.mem_cons.mp h with h2 | h2
          · subst h2; norm_num
          · exact absurd h2 (by simp))

theorem simulate_LenOK (s : RootSystem) (dt : ℚ) (hp : ParamsOK s) (hl : LenOK s) :
    LenOK (s.simulate dt) := by
  unfold LenOK
  unfold RootSystem.simulate
  dsimp only
  split
  · exact hl
  · obtain ⟨A, B, C, D, E, F, G, H⟩ := growForest_spec
      { rtparam := s.rtparam, gf := s.gf, tf := s.tf, geometry := s.geometry, soil := s.soil,
        time := s.simtime + dt } dt s.baseRoots ⟨s.rid, s.nid, s.gen⟩
    intro x hx
    rcases List.mem_append.mp hx with hx | hx
    · exact H hl x hx
    · obtain ⟨-, e2, -, -⟩ := E x hx
      rw [e2]
      exact hp x.tIdx

theorem simulate_ParamsOK (s : RootSystem) (dt : ℚ) (hp : ParamsOK s) :
    ParamsOK (s.simulate dt) := by
  intro t
  rw [simulate_rtparam]
  exact hp t

theorem simulateSeq_LenOK : ∀ (dts : List ℚ) (s : RootSystem),
    ParamsOK s → LenOK s → LenOK (simulateSeq dts s)
  | [], s, _, hl => hl
  | d :: rest, s, hp, hl =>
      simulateSeq_LenOK rest (s.simulate d) (simulate_ParamsOK s d hp)
        (simulate_LenOK s d hp hl)

set_option maxRecDepth 10000 in
theorem linearDemo_five : tapLength (linearDemo [5]) = 5 := by
  norm_num [linearDemo, simulateSeq, setParams, RootSystem.setRootTypeParameter,
    RootSystem.setSeed, RootSystem.init, RootSystem.initializeRoots, mkBaseRoots,
    RootSystem.simulate, growForest, growAxis, elongate, spawnLaterals, emergeDt, afterDelay,
    getParam, getParamL, getGF, getTF, GrowthFunction.getLengthQ, createGrowthFunction,
    createTropismFunction, tropismHeading, tropismTrials, RandomStream.randn, RandomStream.rand,
    mixDraw, tipPos, Vector3d.add, Vector3d.smul, origin, SignedDistanceFunction.dist,
    mkBranchPts, tapLength, linearExample, List.getElem_set_self, List.getElem_map]

set_option maxRecDepth 10000 in
theorem linearDemo_clamp : tapLength (linearDemo [5, 10]) = 10 := by
  norm_num [linearDemo, simulateSeq, setParams, RootSystem.setRootTypeParameter,
    RootSystem.setSeed, RootSystem.init, RootSystem.initializeRoots, mkBaseRoots,
    RootSystem.simulate, growForest, growAxis, elongate, spawnLaterals, emergeDt, afterDelay,
    getParam, getParamL, getGF, getTF, GrowthFunction.getLengthQ, createGrowthFunction,
    createTropismFunction, tropismHeading, tropismTrials, RandomStream.randn, RandomStream.rand,
    mixDraw, tipPos, Vector3d.add, Vector3d.smul, origin, SignedDistanceFunction.dist,
    mkBranchPts, tapLength, linearExample, List.getElem_set_self, List.getElem_map]

theorem paramsOK_init : ParamsOK RootSystem.init := by
  intro t
  unfold getParamL
  split
  · simp only [RootSystem.init, List.get_replicate]
    exact le_refl 0
  · exact le_refl 0

theorem lenOK_init : LenOK RootSystem.init := by
  intro x hx
  exact absurd hx (by simp [RootSystem.init])

/-- C4: in the §8 scenario (seed 1, one type with maximum length 10, linear
growth with rate 1, no laterals, no confining geometry, tap root only),
`simulate(5)` yields a tap-axis length of exactly 5, and a further
`simulate(10)` clamps the length at exactly 10, not 15; and in general, from
any state whose axes respect their configured maximum lengths (with
non-negative configured maxima), no `simulate(dt)` sequence ever pushes an
axis beyond its type's maximum length. -/
theorem linear_growth_and_bounded_length (s : RootSystem) (dts : List ℚ)
    (hp : ParamsOK s) (hl : LenOK s) :
    tapLength (linearDemo [5]) = 5 ∧ tapLength (linearDemo [5, 10]) = 10 ∧
    LenOK (simulateSeq dts s) :=
  ⟨linearDemo_five, linearDemo_clamp, simulateSeq_LenOK dts s hp hl⟩

/-- Witness for `linear_growth_and_bounded_length` at the fresh engine and the
step sequence `[3, 4]`. -/
theorem linear_growth_and_bounded_length_witness :
    tapLength (linearDemo [5]) = 5 ∧ tapLength (linearDemo [5, 10]) = 10 ∧
    LenOK (simulateSeq [3, 4] RootSystem.init) :=
  linear_growth_and_bounded_length RootSystem.init [3, 4] paramsOK_init lenOK_init

/-- C1: determinism.  Two engines built with the same seed, the same type
parameters, the same `initialize` arguments and the same `simulate(dt)`
sequence agree on every observable (node positions, node ids, root ids, node
and root counts, segments); and after `setSeed(seed)` the stream of `rand()`
draws is a pure function of the seed and the draw count, independent of the
engine's prior history. -/
theorem determinism_of_runs (seed : ℚ) (ps : List RootTypeParameter) (b sb : Nat)
    (dts : List ℚ) (e1 e2 t1 t2 : RootSystem) (n : Nat)
    (h1 : e1 = runProgram seed ps b sb dts) (h2 : e2 = runProgram seed ps b sb dts) :
    e1.getNodes = e2.getNodes ∧ nodeIdsF e1.baseRoots = nodeIdsF e2.baseRoots ∧
    rootIdsF e1.baseRoots = rootIdsF e2.baseRoots ∧
    e1.getNumberOfNodes = e2.getNumberOfNodes ∧
    e1.getNumberOfRoots true = e2.getNumberOfRoots true ∧
    e1.getNumberOfRoots false = e2.getNumberOfRoots false ∧
    e1.getSegments = e2.getSegments ∧
    randSeq n ((t1.setSeed seed).gen) = randSeq n ((t2.setSeed seed).gen) := by
  subst h1
  subst h2
  exact ⟨rfl, rfl, rfl, rfl, rfl, rfl, rfl, rfl⟩

/-- Witness for `determinism_of_runs`: two independently written-down runs of
the same program, and the seed-1 draw sequence compared between a fresh engine
and an engine with a different history. -/
theorem determinism_of_runs_witness :
    (runProgram 1 [linearExample] 1 0 [2, 3]).getNodes =
      (runProgram 1 [linearExample] 1 0 [2, 3]).getNodes ∧
    nodeIdsF (runProgram 1 [linearExample] 1 0 [2, 3]).baseRoots =
      nodeIdsF (runProgram 1 [linearExample] 1 0 [2, 3]).baseRoots ∧
    rootIdsF (runProgram 1 [linearExample] 1 0 [2, 3]).baseRoots =
      rootIdsF (runProgram 1 [linearExample] 1 0 [2, 3]).baseRoots ∧
    (runProgram 1 [linearExample] 1 0 [2, 3]).getNumberOfNodes =
      (runProgram 1 [linearExample] 1 0 [2, 3]).getNumberOfNodes ∧
    (runProgram 1 [linearExample] 1 0 [2, 3]).getNumberOfRoots true =
      (runProgram 1 [linearExample] 1 0 [2, 3]).getNumberOfRoots true ∧
    (runProgram 1 [linearExample] 1 0 [2, 3]).getNumberOfRoots false =
      (runProgram 1 [linearExample] 1 0 [2, 3]).getNumberOfRoots false ∧
    (runProgram 1 [linearExample] 1 0 [2, 3]).getSegments =
      (runProgram 1 [linearExample] 1 0 [2, 3]).getSegments ∧
    randSeq 3 ((RootSystem.init.setSeed 1).gen) =
      randSeq 3 (((RootSystem.init.simulate 2).setSeed 1).gen) :=
  determinism_of_runs 1 [linearExample] 1 0 [2, 3] (runProgram 1 [linearExample] 1 0 [2, 3])
    (runProgram 1 [linearExample] 1 0 [2, 3]) RootSystem.init (RootSystem.init.simulate 2) 3
    rfl rfl

/-- C5: the growth-function strategies.  For positive rate and maximum length,
the negative-exponential variant equals
`maxLength * (1 - exp(-age * rate / maxLength))`, is strictly increasing in
age, stays strictly below the maximum length, and tends to the maximum length
as age grows; the linear variant equals `min (rate * age) maxLength` and is
monotone.  Both are plain functions of age and the parameters — the
definitions carry no state. -/
theorem growth_function_spec (r lmax : ℝ) (hr : 0 < r) (hL : 0 < lmax) :
    StrictMono (negexpLength r lmax) ∧
    Filter.Tendsto (negexpLength r lmax) Filter.atTop (nhds lmax) ∧
    (∀ age : ℝ, negexpLength r lmax age < lmax) ∧
    (∀ age : ℝ, negexpLength r lmax age = lmax * (1 - Real.exp (-age * r / lmax))) ∧
    (∀ age : ℝ, linearLength r lmax age = min (r * age) lmax) ∧
    Monotone (linearLength r lmax) := by
  refine ⟨?_, ?_, ?_, fun age => rfl, fun age => rfl, ?_⟩
  · intro x y hxy
    unfold negexpLength
    have h1 : -y * r / lmax < -x * r / lmax := by
      rw [div_lt_div_right hL]
      have := mul_lt_mul_of_pos_right (neg_lt_neg hxy) hr
      linarith
    have h2 : Real.exp (-y * r / lmax) < Real.exp (-x * r / lmax) := Real.exp_lt_exp.mpr h1
    have h3 : 1 - Real.exp (-x * r / lmax) < 1 - Real.exp (-y * r / lmax) := by linarith
    exact mul_lt_mul_of_pos_left h3 hL
  · have h2 : Filter.Tendsto (fun age : ℝ => -age * r / lmax) Filter.atTop Filter.atBot := by
      have h0 : Filter.Tendsto (fun age : ℝ => age * (r / lmax)) Filter.atTop Filter.atTop :=
        Filter.Tendsto.atTop_mul_const (div_pos hr hL) Filter.tendsto_id
      have h1 := Filter.tendsto_neg_atTop_atBot.comp h0
      have heq : (fun age : ℝ => -age * r / lmax) = (fun age : ℝ => -(age * (r / lmax))) := by
        funext age
        ring
      rw [heq]
      exact h1
    have h3 : Filter.Tendsto (fun age : ℝ => Real.exp (-age * r / lmax)) Filter.atTop (nhds 0) :=
      Real.tendsto_exp_atBot.comp h2
    have h4 : Filter.Tendsto (fun age : ℝ => lmax * (1 - Real.exp (-age * r / lmax)))
        Filter.atTop (nhds (lmax * (1 - 0))) :=
      (Filter.Tendsto.sub tendsto_const_nhds h3).const_mul lmax
    unfold negexpLength
    simpa using h4
  · intro age
    unfold negexpLength
    have := Real.exp_pos (-age * r / lmax)
    nlinarith
  · intro x y hxy
    unfold linearLength
    exact min_le_min (mul_le_mul_of_nonneg_left hxy hr.le) (le_refl lmax)

/-- Witness for `growth_function_spec` at rate 1 and maximum length 1. -/
theorem growth_function_spec_witness :
    negexpLength 1 1 0 < negexpLength 1 1 1 ∧
    negexpLength 1 1 2 < 1 ∧
    linearLength 1 1 2 = min ((1 : ℝ) * 2) 1 :=
  ⟨(growth_function_spec 1 1 one_pos one_pos).1 (by norm_num),
   (growth_function_spec 1 1 one_pos one_pos).2.2.1 2,
   (growth_function_spec 1 1 one_pos one_pos).2.2.2.2.1 2⟩
end CRootBox
